import Mathlib

/-!
# Verification of the StageGL batching renderer (createjs-es6)

This file gives a shallow embedding, in Lean 4, of the algorithmic core of
`src/utils/EaselJS/display/StageGL.js` (and the duplicated
`AJStageGL.js` / `filters/BitmapCache.js` where relevant):

* the `autoPurge` setter clamp;
* the sampler-count halving loop of `_initMaterials`;
* the UV-rectangle formulas of `_appendToBatch` and `StageGL.UV_RECT`;
* the identifier scoping of `getRenderBufferTexture`;
* the texture sweep of `purgeTextures`;
* the vertex-capacity accounting of `_appendToBatch` / `_renderBatch` /
  `_drawContent`;
* the alpha/visibility culling of the `_appendToBatch` traversal;
* the slot search of `_insertTextureInBatch`;
* the render-mode switching of `_updateRenderMode` and the per-child
  restore logic of `_appendToBatch`.

JavaScript numbers are modelled as `ℚ` (or `ℕ` for the monotone counters),
fallible computations as `Option`/`Except`, and the mutable instance fields
of the renderer as explicit state records.
-/

namespace StageGLModel

/-! ## The `autoPurge` setter (StageGL.js lines 632-641)

```js
set autoPurge(value) {
  value = isNaN(value) ? 1200 : value;
  if (value !== -1) {
    value = Math.max(value, 10);
  }
  this._autoPurge = value;
}
```

The incoming JavaScript number is modelled as `Option ℚ`, with `none`
standing for `NaN` (the only non-numeric case the setter distinguishes). -/

def setAutoPurge (value : Option ℚ) : ℚ :=
  let v : ℚ := match value with
    | none => 1200
    | some v => v
  if v = -1 then v else max v 10

/-- The constructor (lines 135-199) defaults `autoPurge` to `1200` and routes
it through the setter: `this.autoPurge = autoPurge`. -/
def constructorAutoPurge (opt : Option (Option ℚ)) : ℚ :=
  setAutoPurge (opt.getD (some 1200))

/-- Claim C10: the `autoPurge` setter stores 1200 for `NaN`, keeps `-1`
unchanged, clamps every other numeric value `v` to `max v 10`, hence the
stored value is always `-1` or at least `10`, and the constructor default
is `1200`. -/
theorem c10_autoPurge_setter :
    setAutoPurge none = 1200
    ∧ setAutoPurge (some (-1)) = -1
    ∧ (∀ v : ℚ, v ≠ -1 → setAutoPurge (some v) = max v 10)
    ∧ (∀ x : Option ℚ, setAutoPurge x = -1 ∨ 10 ≤ setAutoPurge x)
    ∧ constructorAutoPurge none = 1200 := by
  refine ⟨by norm_num [setAutoPurge], by norm_num [setAutoPurge], ?_, ?_, ?_⟩
  · intro v hv
    simp only [setAutoPurge, if_neg hv]
  · intro x
    cases x with
    | none => right; norm_num [setAutoPurge]
    | some v =>
      by_cases hv : v = -1
      · left; simp [setAutoPurge, hv]
      · right; simp only [setAutoPurge, if_neg hv]
        exact le_max_right _ _
  · norm_num [constructorAutoPurge, setAutoPurge]

theorem c10_autoPurge_setter_witness :
    setAutoPurge (some 3) = max 3 10 :=
  c10_autoPurge_setter.2.2.1 3 (by norm_num)

/-! ## The sampler-halving loop of `_initMaterials` (lines 1519-1563)

```js
this._batchTextureCount = this._gpuTextureCount;
let success = false;
while (!success) {
  try {
    this._activeShader = this._fetchShaderProgram(false);
    success = true;
  } catch(e) {
    if (this._batchTextureCount <= 1) { throw "Cannot compile shader " + e; }
    this._batchTextureCount = (this._batchTextureCount / 2)|0;
    ...
  }
}
```

Whether `_fetchShaderProgram` succeeds for a given sampler count depends on
the GPU driver; it is abstracted as an oracle `compiles : ℕ → Bool`. The
loop either returns the surviving count (`some n`) or throws (`none`). -/

def initMaterialsCount (compiles : Nat → Bool) (c : Nat) : Option Nat :=
  if compiles c then some c
  else if c ≤ 1 then none
  else initMaterialsCount compiles (c / 2)
termination_by c
decreasing_by exact Nat.div_lt_self (by omega) (by norm_num)

/-- The sequence of sampler counts the loop attempts, starting from `c` and
halving (integer division) until reaching a count `≤ 1`. -/
def halvingChain (c : Nat) : List Nat :=
  if c ≤ 1 then [c] else c :: halvingChain (c / 2)
termination_by c
decreasing_by exact Nat.div_lt_self (by omega) (by norm_num)

theorem initMaterialsCount_eq (compiles : Nat → Bool) (c : Nat) :
    initMaterialsCount compiles c =
      if compiles c then some c
      else if c ≤ 1 then none
      else initMaterialsCount compiles (c / 2) := by
  rw [initMaterialsCount]

theorem halvingChain_eq (c : Nat) :
    halvingChain c = if c ≤ 1 then [c] else c :: halvingChain (c / 2) := by
  rw [halvingChain]

/-- Claim C8: if compiling the batch shader fails the sampler count is halved
and compilation retried; this repeats until success or the count reaches 1,
where a further failure is fatal (`none`, i.e. the thrown exception); the
loop fails exactly when every count in the halving chain fails to compile,
and on success the surviving count is one that compiles. -/
theorem c8_sampler_halving (compiles : Nat → Bool) (c : Nat) :
    (compiles c = true → initMaterialsCount compiles c = some c)
    ∧ (compiles c = false → 1 < c →
        initMaterialsCount compiles c = initMaterialsCount compiles (c / 2))
    ∧ (compiles c = false → c ≤ 1 → initMaterialsCount compiles c = none)
    ∧ (initMaterialsCount compiles c = none ↔
        ∀ d ∈ halvingChain c, compiles d = false)
    ∧ (∀ n, initMaterialsCount compiles c = some n →
        compiles n = true ∧ n ∈ halvingChain c) := by
  induction c using Nat.strong_induction_on with
  | _ c ih =>
    refine ⟨?_, ?_, ?_, ?_, ?_⟩
    · intro h
      rw [initMaterialsCount_eq, h]
      simp
    · intro h hc
      rw [initMaterialsCount_eq, h]
      simp [Nat.not_le.mpr hc]
    · intro h hc
      rw [initMaterialsCount_eq, h]
      simp [hc]
    · rw [initMaterialsCount_eq, halvingChain_eq]
      by_cases h : compiles c
      · simp only [h, if_true]
        constructor
        · intro hn; exact absurd hn (by simp)
        · intro hall
          have hc : compiles c = false := by
            by_cases hc1 : c ≤ 1
            · exact hall c (by simp [hc1])
            · exact hall c (by simp [hc1])
          rw [h] at hc; cases hc
      · by_cases hc : c ≤ 1
        · simp [h, hc, Bool.eq_false_iff.mpr h]
        · have := (ih (c / 2) (Nat.div_lt_self (by omega) (by norm_num))).2.2.2.1
          simp only [h, hc, if_false, Bool.false_eq_true]
          rw [this]
          constructor
          · intro hall d hd
            rcases List.mem_cons.mp hd with rfl | hd
            · exact Bool.eq_false_iff.mpr h
            · exact hall d hd
          · intro hall d hd
            exact hall d (List.mem_cons_of_mem _ hd)
    · intro n hn
      rw [initMaterialsCount_eq] at hn
      rw [halvingChain_eq]
      by_cases h : compiles c
      · simp only [h, if_true] at hn
        cases hn
        by_cases hc : c ≤ 1 <;> simp [h, hc]
      · by_cases hc : c ≤ 1
        · simp [h, hc] at hn
        · simp only [h, hc, if_false, Bool.false_eq_true] at hn
          have := (ih (c / 2) (Nat.div_lt_self (by omega) (by norm_num))).2.2.2.2 n hn
          exact ⟨this.1, by simp [hc, this.2]⟩

theorem c8_sampler_halving_witness :
    (fun n => decide (n ≤ 4)) 4 = true ∧ 4 ∈ halvingChain 32 :=
  (c8_sampler_halving (fun n => decide (n ≤ 4)) 32).2.2.2.2 4
    (by rw [initMaterialsCount_eq]; norm_num
        rw [initMaterialsCount_eq]; norm_num
        rw [initMaterialsCount_eq]; norm_num
        rw [initMaterialsCount_eq]; norm_num)

/-! ## UV rectangles of `_appendToBatch` (lines 2074-2100, 2147-2160) and
`StageGL.UV_RECT` (line 2406)

A UV rectangle carries the four texture coordinates `t`/`l`/`b`/`r` exactly
as the `uvRect` objects do in the source. -/

structure UVRect where
  t : ℚ
  l : ℚ
  b : ℚ
  r : ℚ
deriving DecidableEq, Repr

/-- `StageGL.UV_RECT = {t:1, l:0, b:0, r:1}` (line 2406), used for every
full-image bitmap card. -/
def UV_RECT : UVRect := { t := 1, l := 0, b := 0, r := 1 }

/-- The `sourceRect` branch of `_appendToBatch` (lines 2080-2083):

```js
uvRect.t = 1 - ((src.y)/image.height);
uvRect.l = (src.x)/image.width;
uvRect.b = 1 - ((src.y + src.height)/image.height);
uvRect.r = (src.x + src.width)/image.width;
```
-/
def uvRectSource (x y w h W H : ℚ) : UVRect :=
  { t := 1 - y / H
    l := x / W
    b := 1 - (y + h) / H
    r := (x + w) / W }

/-- The six UV corner pairs written for one card, in write order
(lines 2150-2160): `(l,t), (l,b), (r,t), (l,b), (r,t), (r,b)`. -/
def uvCorners (u : UVRect) : List (ℚ × ℚ) :=
  [(u.l, u.t), (u.l, u.b), (u.r, u.t), (u.l, u.b), (u.r, u.t), (u.r, u.b)]

/-- Modelled from the spec: the fixed flip convention, mapping a plain
image-space UV rectangle (left, right, top, bottom as fractions of the
image size) to the stored rectangle by flipping the vertical axis
(`v ↦ 1 - v`). -/
def specFlipConvention (left right top bottom : ℚ) : UVRect :=
  { t := 1 - top, l := left, b := 1 - bottom, r := right }

/-- Claim C6: a full-image card's UV corner set is exactly
`{(0,0), (0,1), (1,0), (1,1)}`; a sourceRect `(x,y,w,h)` card over an image
of size `(W,H)` writes exactly the rectangle with left `x/W`, right
`(x+w)/W`, top `y/H` and bottom `(y+h)/H` under the fixed flip convention;
and the two kinds of card are consistent: the sourceRect formula at the
full image `(0,0,W,H)` reproduces `UV_RECT`. -/
theorem c6_uv_corners :
    (uvCorners UV_RECT).toFinset =
      ({((0 : ℚ), (0 : ℚ)), (0, 1), (1, 0), (1, 1)} : Finset (ℚ × ℚ))
    ∧ (∀ x y w h W H : ℚ,
        uvRectSource x y w h W H =
          specFlipConvention (x / W) ((x + w) / W) (y / H) ((y + h) / H))
    ∧ (∀ W H : ℚ, W ≠ 0 → H ≠ 0 → uvRectSource 0 0 W H W H = UV_RECT) := by
  refine ⟨by decide, ?_, ?_⟩
  · intro x y w h W H
    rfl
  · intro W H hW hH
    simp only [uvRectSource, UV_RECT, zero_add, zero_div,
      div_self hW, div_self hH]
    norm_num

theorem c6_uv_corners_witness :
    uvRectSource 0 0 8 4 8 4 = UV_RECT :=
  c6_uv_corners.2.2 8 4 (by norm_num) (by norm_num)

/-! ## `getRenderBufferTexture` (StageGL.js lines 1079-1104, duplicated at
AJStageGL.js lines 528-553)

```js
getRenderBufferTexture(width, height) {
  let gl = this._webGLContext;
  let renderTexture = this.getBaseTexture(w, h);
  ...
}
```

The call `this.getBaseTexture(w, h)` names the identifiers `w` and `h`.
JavaScript resolves a plain identifier against the lexical environment:
here the function parameters (`width`, `height`), the locals declared
before the call (`gl`), and the module-level imports. An identifier bound
nowhere in that chain throws a `ReferenceError` when evaluated. -/

inductive JsError where
  | referenceError (name : String)
deriving DecidableEq, Repr

/-- Identifiers lexically visible at the `this.getBaseTexture(w, h)` call in
`StageGL.js`: the module-level imports of the file (lines 61-66), the
enclosing class name, the two parameters, and the local `gl` declared on
the preceding line. -/
def scopeStageGL : List String :=
  ["Stage", "Container", "shaders", "Matrix2D", "Filter", "BitmapCache",
   "StageGL", "width", "height", "gl"]

/-- Identifiers lexically visible at the same call in `AJStageGL.js`
(identical import list, lines 1-6). -/
def scopeAJStageGL : List String :=
  ["Stage", "Container", "shaders", "Matrix2D", "Filter", "BitmapCache",
   "AJStageGL", "width", "height", "gl"]

/-- Evaluating an identifier: `ReferenceError` when it is not bound in the
lexical environment. -/
def evalIdent (scope : List String) (n : String) : Except JsError Unit :=
  if n ∈ scope then Except.ok () else Except.error (JsError.referenceError n)

/-- A render-buffer texture as the method would produce it: a base texture
of the requested size with an attached framebuffer. -/
structure RenderTexture where
  width : ℚ
  height : ℚ
  hasFrameBuffer : Bool
deriving DecidableEq, Repr

/-- `StageGL#getRenderBufferTexture` (lines 1079-1104). The GL calls are
external; the embedded control flow is: evaluate the arguments `w` and `h`
of the `getBaseTexture` call (each a bare identifier lookup), then build
the framebuffer-backed texture and stamp the requested `width`/`height`
onto it. -/
def getRenderBufferTexture (width height : ℚ) : Except JsError RenderTexture := do
  let _ ← evalIdent scopeStageGL "w"
  let _ ← evalIdent scopeStageGL "h"
  Except.ok { width := width, height := height, hasFrameBuffer := true }

/-- `AJStageGL#getRenderBufferTexture` (lines 528-553): byte-for-byte the
same body, resolved against `AJStageGL.js`'s scope. -/
def ajGetRenderBufferTexture (width height : ℚ) : Except JsError RenderTexture := do
  let _ ← evalIdent scopeAJStageGL "w"
  let _ ← evalIdent scopeAJStageGL "h"
  Except.ok { width := width, height := height, hasFrameBuffer := true }

/-- `_initializeWebGL` (lines 680-682): with `directDraw = false` the output
buffer is allocated through `getRenderBufferTexture`; the exception
propagates out of initialization. -/
def initializeWebGLOutputBuffer (directDraw : Bool) (vw vh : ℚ) :
    Except JsError (Option RenderTexture) :=
  if directDraw then Except.ok none
  else do
    let t ← getRenderBufferTexture vw vh
    Except.ok (some t)

/-- `_immediateBatchRender` (lines 2217-2218): a missing concat buffer is
allocated through `getRenderBufferTexture`. -/
def immediateBatchRenderConcat (concat : Option RenderTexture) (vw vh : ℚ) :
    Except JsError RenderTexture :=
  match concat with
  | some t => Except.ok t
  | none => getRenderBufferTexture vw vh

/-- `BitmapCache#update` (BitmapCache.js lines 432-437): under a GL stage, a
missing output buffer is allocated through the stage's
`getRenderBufferTexture`. -/
def bitmapCacheUpdateOutput (stageGL : Bool) (bufferOut : Option RenderTexture)
    (dw dh : ℚ) : Except JsError (Option RenderTexture) :=
  if stageGL then
    match bufferOut with
    | none => do
        let t ← getRenderBufferTexture dw dh
        Except.ok (some t)
    | some t => Except.ok (some t)
  else Except.ok bufferOut

/-- Claim C9: every call to `getRenderBufferTexture` (on `StageGL` and on
`AJStageGL`) throws a `ReferenceError` on the unbound identifier `w`
instead of using its `width`/`height` parameters, so no caller obtains a
render texture; the three modelled call sites (non-directDraw output
buffer, immediate blend-mode rendering, GL bitmap-cache buffer allocation)
all fail with the same error. -/
theorem c9_renderBufferTexture_referenceError :
    (∀ width height : ℚ,
      getRenderBufferTexture width height =
        Except.error (JsError.referenceError "w"))
    ∧ (∀ width height : ℚ,
      ajGetRenderBufferTexture width height =
        Except.error (JsError.referenceError "w"))
    ∧ (∀ vw vh : ℚ,
      initializeWebGLOutputBuffer false vw vh =
        Except.error (JsError.referenceError "w"))
    ∧ (∀ vw vh : ℚ,
      immediateBatchRenderConcat none vw vh =
        Except.error (JsError.referenceError "w"))
    ∧ (∀ dw dh : ℚ,
      bitmapCacheUpdateOutput true none dw dh =
        Except.error (JsError.referenceError "w")) := by
  refine ⟨?_, ?_, ?_, ?_, ?_⟩ <;> intro a b <;> rfl

/-! ## `purgeTextures` (lines 943-962) and `_killTextureObject` (lines 1733-1771)

```js
purgeTextures(count = 100) {
  let dict = this._textureDictionary;
  let l = dict.length;
  for (let i = 0; i<l; i++) {
    let texture = dict[i];
    let data;
    if (!texture || !(data = texture._imageData)) { continue; }
    for (let j = 0; j < data.length; j++) {
      let item = data[j];
      if (item._drawID + count <= this._drawID) {
        item._storeID = undefined;
        data.splice(j, 1);
        j--;
      }
    }
    if (!data.length) { this._killTextureObject(texture); }
  }
}
```

A registered texture is modelled by the `_drawID`s of its attached image
sources (`_imageData`); render-buffer and base textures have no
`_imageData` field (`none`) and are skipped by the sweep. A dictionary
entry killed by `_killTextureObject` becomes `undefined` (`none`). -/

/-- A texture record: `imageData` is the list of `_drawID`s of its attached
sources, or `none` when the texture has no `_imageData` field. -/
structure PTexture where
  imageData : Option (List Nat)
deriving DecidableEq, Repr

/-- The sources of `data` surviving a sweep: the inner `for`/`splice` loop
removes exactly the items with `item._drawID + count <= this._drawID`. -/
def survivors (count drawID : Nat) (data : List Nat) : List Nat :=
  data.filter (fun d => decide (drawID < d + count))

/-- One dictionary entry under `purgeTextures`: skip `undefined` entries and
textures without `_imageData`; otherwise sweep the sources and kill the
texture (entry becomes `undefined`) when none remain. -/
def purgeEntry (count drawID : Nat) (e : Option PTexture) : Option PTexture :=
  match e with
  | none => none
  | some t =>
    match t.imageData with
    | none => some t
    | some data =>
      let keep := survivors count drawID data
      if keep.isEmpty then none else some { imageData := some keep }

/-- `purgeTextures(count)` over the whole `_textureDictionary`. -/
def purgeTextures (count drawID : Nat) (dict : List (Option PTexture)) :
    List (Option PTexture) :=
  dict.map (purgeEntry count drawID)

/-- Claim C7: `purgeTextures(maxAge)` removes exactly the sources whose
last-drawn id plus `maxAge` is at most the current draw id; a texture is
destroyed only when no sources remain; when no registered source exceeds
the age threshold the sweep is a no-op on the dictionary; and a texture
destroyed by an earlier call is never restored by a later call. -/
theorem c7_purgeTextures (count drawID : Nat) (dict : List (Option PTexture)) :
    (∀ data d, d ∈ survivors count drawID data ↔ d ∈ data ∧ ¬ d + count ≤ drawID)
    ∧ (∀ t data, t.imageData = some data →
        purgeEntry count drawID (some t) =
          (if survivors count drawID data = [] then none
           else some { imageData := some (survivors count drawID data) }))
    ∧ (∀ t data, t.imageData = some data →
        (purgeEntry count drawID (some t) = none ↔
          survivors count drawID data = []))
    ∧ ((∀ t data, some t ∈ dict → t.imageData = some data →
          data ≠ [] ∧ ∀ d ∈ data, ¬ d + count ≤ drawID) →
        purgeTextures count drawID dict = dict)
    ∧ (∀ count' drawID' i, dict.get? i = some none →
        (purgeTextures count' drawID' dict).get? i = some none) := by
  refine ⟨?_, ?_, ?_, ?_, ?_⟩
  · intro data d
    simp only [survivors, List.mem_filter, decide_eq_true_eq]
    exact and_congr_right fun _ => by omega
  · intro t data hdata
    simp only [purgeEntry, hdata, List.isEmpty_iff]
  · intro t data hdata
    simp only [purgeEntry, hdata, List.isEmpty_iff]
    by_cases h : survivors count drawID data = [] <;> simp [h]
  · intro hyoung
    have : ∀ e ∈ dict, purgeEntry count drawID e = e := by
      intro e he
      match e with
      | none => rfl
      | some t =>
        match ht : t.imageData with
        | none => simp [purgeEntry, ht]
        | some data =>
          obtain ⟨hne, hall⟩ := hyoung t data he ht
          have hsurv : survivors count drawID data = data := by
            apply List.filter_eq_self.mpr
            intro d hd
            simp only [decide_eq_true_eq]
            have := hall d hd
            omega
          simp only [purgeEntry, ht, hsurv, List.isEmpty_iff, if_neg hne]
          cases t
          simp_all
    calc purgeTextures count drawID dict
        = dict.map id := List.map_congr_left this
      _ = dict := List.map_id dict
  · intro count' drawID' i hi
    simp only [purgeTextures, List.get?_eq_getElem?] at hi ⊢
    rcases List.getElem?_eq_some_iff.mp hi with ⟨hlt, hval⟩
    rw [List.getElem?_map, List.getElem?_eq_getElem hlt, hval]
    rfl

theorem c7_purgeTextures_witness :
    purgeTextures 100 50
      [some { imageData := some [5] }, none, some { imageData := none }] =
      [some { imageData := some [5] }, none, some { imageData := none }] :=
  (c7_purgeTextures 100 50
      [some { imageData := some [5] }, none, some { imageData := none }]).2.2.2.1
    (by
      intro t data ht hdata
      simp only [List.mem_cons, List.not_mem_nil, or_false] at ht
      rcases ht with h | h | h
      · injection h with h'
        subst h'
        simp only [PTexture.mk.injEq, Option.some.injEq] at hdata
        subst hdata
        refine ⟨by simp, ?_⟩
        intro d hd
        simp only [List.mem_singleton] at hd
        omega
      · exact absurd h (by simp)
      · injection h with h'
        subst h'
        simp at hdata)

/-! ## Vertex-batch accounting: `_appendToBatch` (lines 2014-2018, 2192),
`_renderBatch` (lines 2252-2297), `_drawContent` (lines 1857-1869)

```js
// _appendToBatch, per card:
if (this._batchVertexCount + StageGL.INDICIES_PER_CARD > this._maxBatchVertexCount) {
  this.batchReason = "vertexOverflow";
  this._renderBatch();
}
... // six vertex writes at offset _batchVertexCount
this._batchVertexCount += StageGL.INDICIES_PER_CARD;

// _renderBatch:
if (this._batchVertexCount <= 0) { return; }
...
gl.drawArrays(gl.TRIANGLES, 0, this._batchVertexCount);
this._batchVertexCount = 0;
this._batchID++;
```

The state tracks the vertex cursor, plus (as instrumentation of the buffer
contents) the ordered card ids whose six vertices currently sit in the
buffer region `[0, _batchVertexCount)`, and the record of every draw the
flushes have issued. -/

def INDICIES_PER_CARD : Nat := 6

/-- One executed `_renderBatch` draw: the `batchReason` active at the time,
the vertex count passed to `drawArrays`, and the cards whose vertices the
drawn buffer region held. -/
structure FlushRec where
  reason : String
  drawnVertices : Nat
  cards : List Nat
deriving DecidableEq, Repr

structure BatchState where
  batchVertexCount : Nat
  pending : List Nat
  flushes : List FlushRec
deriving DecidableEq, Repr

def initBatch : BatchState := { batchVertexCount := 0, pending := [], flushes := [] }

/-- `_renderBatch` with the given `batchReason`: a no-op on an empty batch,
otherwise one draw of the current vertex count and a cursor reset. -/
def renderBatch (reason : String) (s : BatchState) : BatchState :=
  if s.batchVertexCount = 0 then s
  else
    { batchVertexCount := 0
      pending := []
      flushes := s.flushes ++
        [{ reason := reason, drawnVertices := s.batchVertexCount,
           cards := s.pending }] }

/-- Appending one card in `_appendToBatch`: flush on prospective overflow,
then write the six vertices and advance the cursor. -/
def appendCard (maxVtx : Nat) (s : BatchState) (card : Nat) : BatchState :=
  let s' := if maxVtx < s.batchVertexCount + INDICIES_PER_CARD
            then renderBatch "vertexOverflow" s else s
  { s' with
      batchVertexCount := s'.batchVertexCount + INDICIES_PER_CARD
      pending := s'.pending ++ [card] }

def appendCards (maxVtx : Nat) (s : BatchState) (cards : List Nat) : BatchState :=
  cards.foldl (appendCard maxVtx) s

/-- `_maxBatchVertexCount` as set by the constructor (lines 264-272):
`INDICIES_PER_CARD * max (min batchSize DEFAULT_MAX_BATCH_SIZE) DEFAULT_MIN_BATCH_SIZE`. -/
def maxBatchVertexCount (batchSize : Nat) : Nat :=
  INDICIES_PER_CARD * (max (min batchSize 10920) 170)

/-- `_drawContent`: append the content then flush the remainder with reason
`"contentEnd"` (lines 1865-1868). -/
def drawContent (maxVtx : Nat) (cards : List Nat) : BatchState :=
  renderBatch "contentEnd" (appendCards maxVtx initBatch cards)

/-- Claim C1: with the constructor-configured capacity, a card append whose
six vertices would overflow the capacity first performs a
`"vertexOverflow"` flush that resets the cursor to zero; consequently the
cursor never exceeds the capacity: it is bounded after a single append and
after any sequence of appends. -/
theorem c1_vertex_capacity_invariant (batchSize card : Nat) (s : BatchState)
    (hs : s.batchVertexCount ≤ maxBatchVertexCount batchSize) :
    (appendCard (maxBatchVertexCount batchSize) s card).batchVertexCount
      ≤ maxBatchVertexCount batchSize
    ∧ (maxBatchVertexCount batchSize < s.batchVertexCount + INDICIES_PER_CARD →
        (appendCard (maxBatchVertexCount batchSize) s card).flushes =
          s.flushes ++
            [{ reason := "vertexOverflow", drawnVertices := s.batchVertexCount,
               cards := s.pending }]
        ∧ (appendCard (maxBatchVertexCount batchSize) s card).batchVertexCount =
            INDICIES_PER_CARD)
    ∧ (∀ cards,
        (appendCards (maxBatchVertexCount batchSize) s cards).batchVertexCount
          ≤ maxBatchVertexCount batchSize) := by
  have hM : 1020 ≤ maxBatchVertexCount batchSize := by
    have h170 : 170 ≤ max (min batchSize 10920) 170 := le_max_right _ _
    simp only [maxBatchVertexCount, INDICIES_PER_CARD]
    omega
  have hstep : ∀ t : BatchState,
      t.batchVertexCount ≤ maxBatchVertexCount batchSize →
      (appendCard (maxBatchVertexCount batchSize) t card).batchVertexCount
        ≤ maxBatchVertexCount batchSize := by
    intro t ht
    simp only [appendCard, renderBatch, INDICIES_PER_CARD]
    by_cases hof : maxBatchVertexCount batchSize < t.batchVertexCount + 6
    · have hne : ¬ t.batchVertexCount = 0 := by omega
      simp only [hof, if_true, hne, if_false]
      omega
    · simp only [hof, if_false]
      omega
  refine ⟨hstep s hs, ?_, ?_⟩
  · intro hof
    simp only [INDICIES_PER_CARD] at hof
    have hne : ¬ s.batchVertexCount = 0 := by omega
    constructor
    · simp [appendCard, renderBatch, INDICIES_PER_CARD, hof, hne]
    · simp [appendCard, renderBatch, INDICIES_PER_CARD, hof, hne]
  · intro cards
    induction cards generalizing s with
    | nil => exact hs
    | cons c rest ih =>
      have h1 : (appendCard (maxBatchVertexCount batchSize) s c).batchVertexCount
          ≤ maxBatchVertexCount batchSize := by
        have := hstep s hs
        simpa [appendCard] using this
      simpa [appendCards] using
        ih (appendCard (maxBatchVertexCount batchSize) s c) h1

theorem c1_vertex_capacity_invariant_witness :
    (appendCard (maxBatchVertexCount 170) initBatch 0).batchVertexCount
      ≤ maxBatchVertexCount 170 :=
  (c1_vertex_capacity_invariant 170 0 initBatch (by decide)).1

/-- The cards drawn by the flushes so far, in draw order. -/
def flushedCards (s : BatchState) : List Nat :=
  (s.flushes.map FlushRec.cards).join

/-- The batching invariant tying a state to the card sequence `l` appended
so far, at capacity `6 * k` cards-worth of vertices. -/
def BatchInv (k : Nat) (l : List Nat) (s : BatchState) : Prop :=
  s.batchVertexCount = 6 * s.pending.length
  ∧ flushedCards s ++ s.pending = l
  ∧ (∀ f ∈ s.flushes,
      f.reason = "vertexOverflow" ∧ f.cards.length = k ∧ f.drawnVertices = 6 * k)
  ∧ s.pending.length ≤ k
  ∧ (l = [] → s.flushes = [] ∧ s.pending = [])
  ∧ (l ≠ [] → s.pending ≠ [])

theorem batchInv_init (k : Nat) : BatchInv k [] initBatch := by
  refine ⟨rfl, rfl, ?_, ?_, fun _ => ⟨rfl, rfl⟩, fun h => absurd rfl h⟩
  · intro f hf
    exact absurd hf (List.not_mem_nil f)
  · simp [initBatch]

theorem batchInv_append (k : Nat) (hk : 0 < k) (l : List Nat) (s : BatchState)
    (hinv : BatchInv k l s) (c : Nat) :
    BatchInv k (l ++ [c]) (appendCard (6 * k) s c) := by
  obtain ⟨hcnt, hall, hfl, hple, hemp, hne⟩ := hinv
  by_cases hof : 6 * k < s.batchVertexCount + INDICIES_PER_CARD
  · -- overflow: the pending chunk is exactly k cards and gets flushed
    have hplk : s.pending.length = k := by
      simp only [INDICIES_PER_CARD] at hof
      omega
    have hcne : ¬ s.batchVertexCount = 0 := by
      simp only [INDICIES_PER_CARD] at hof
      omega
    simp only [appendCard, renderBatch, hof, if_true, hcne, if_false]
    refine ⟨by simp [INDICIES_PER_CARD], ?_, ?_, ?_, ?_, ?_⟩
    · simp only [flushedCards, List.map_append, List.join_append, List.map_cons,
        List.map_nil, List.join_cons, List.join_nil, List.nil_append,
        List.append_nil, List.append_assoc]
      rw [← List.append_assoc]
      simp only [flushedCards] at hall
      rw [hall]
    · intro f hf
      rcases List.mem_append.mp hf with hf | hf
      · exact hfl f hf
      · simp only [List.mem_singleton] at hf
        subst hf
        exact ⟨rfl, hplk, by rw [hcnt, hplk]⟩
    · simp only [List.length_nil, List.nil_append, List.length_singleton]
      omega
    · intro habs
      exact absurd habs (by simp)
    · intro _
      simp
  · simp only [appendCard, hof, if_false]
    refine ⟨by simp only [INDICIES_PER_CARD, hcnt, List.length_append,
        List.length_singleton]; ring, ?_, hfl, ?_, ?_, ?_⟩
    · simp only [flushedCards] at hall ⊢
      rw [← List.append_assoc, hall]
    · simp only [List.length_append, List.length_singleton,
        INDICIES_PER_CARD] at *
      omega
    · intro habs
      exact absurd habs (by simp)
    · intro _
      simp

theorem batchInv_appendCards (k : Nat) (hk : 0 < k) (cards : List Nat) :
    ∀ (l : List Nat) (s : BatchState), BatchInv k l s →
      BatchInv k (l ++ cards) (appendCards (6 * k) s cards) := by
  induction cards with
  | nil =>
    intro l s h
    simpa [appendCards] using h
  | cons c rest ih =>
    intro l s h
    have h1 := batchInv_append k hk l s h c
    have h2 := ih (l ++ [c]) (appendCard (6 * k) s c) h1
    simpa [appendCards, List.append_assoc] using h2

theorem length_join_of_all_eq (k : Nat) :
    ∀ L : List (List Nat), (∀ x ∈ L, x.length = k) →
      L.join.length = L.length * k := by
  intro L
  induction L with
  | nil => intro _; simp
  | cons x rest ih =>
    intro h
    have hx := h x (List.mem_cons_self x rest)
    have hr := ih fun y hy => h y (List.mem_cons_of_mem x hy)
    simp only [List.join_cons, List.length_append, hx, hr, List.length_cons]
    ring

theorem sum_of_all_eq (k : Nat) :
    ∀ L : List Nat, (∀ x ∈ L, x = k) → L.sum = L.length * k := by
  intro L
  induction L with
  | nil => intro _; simp
  | cons x rest ih =>
    intro h
    have hx := h x (List.mem_cons_self x rest)
    have hr := ih fun y hy => h y (List.mem_cons_of_mem x hy)
    simp only [List.sum_cons, hx, hr, List.length_cons]
    ring

/-- Claim C3: drawing `N` cards at capacity `C = 6 * k` (`N * 6 > C`)
performs exactly `⌈N * 6 / C⌉` flushes (overflow flushes plus the final
content-end flush), the vertex counts passed to the draw calls sum to
`N * 6`, and the per-flush card segments concatenate, in order, to the full
appended sequence — each card lies contiguously in exactly one flush. -/
theorem c3_flush_count (N k : Nat) (hk : 0 < k) (hover : 6 * k < N * 6) :
    (drawContent (6 * k) (List.range N)).flushes.length =
      (N * 6 + (6 * k - 1)) / (6 * k)
    ∧ ((drawContent (6 * k) (List.range N)).flushes.map
        FlushRec.drawnVertices).sum = N * 6
    ∧ ((drawContent (6 * k) (List.range N)).flushes.map
        FlushRec.cards).join = List.range N := by
  have hN : N ≠ 0 := by omega
  have hinv := batchInv_appendCards k hk (List.range N) [] initBatch
    (batchInv_init k)
  simp only [List.nil_append] at hinv
  set s := appendCards (6 * k) initBatch (List.range N) with hs
  obtain ⟨hcnt, hall, hfl, hple, _, hne⟩ := hinv
  have hrne : List.range N ≠ [] := by
    simp [List.range_eq_nil, hN]
  have hpne : s.pending ≠ [] := hne hrne
  have hpl : 0 < s.pending.length := List.length_pos.mpr hpne
  have hcne : ¬ s.batchVertexCount = 0 := by
    rw [hcnt]; omega
  have hdc : drawContent (6 * k) (List.range N) =
      { batchVertexCount := 0, pending := [],
        flushes := s.flushes ++
          [{ reason := "contentEnd", drawnVertices := s.batchVertexCount,
             cards := s.pending }] } := by
    simp [drawContent, ← hs, renderBatch, hcne]
  -- arithmetic bookkeeping: N = k * (#overflow flushes) + |pending|
  have hjoinlen : (s.flushes.map FlushRec.cards).join.length =
      s.flushes.length * k := by
    rw [length_join_of_all_eq k]
    · simp
    · intro x hx
      rcases List.mem_map.mp hx with ⟨f, hf, rfl⟩
      exact (hfl f hf).2.1
  have hNlen : s.flushes.length * k + s.pending.length = N := by
    have := congrArg List.length hall
    simpa [flushedCards, hjoinlen] using this
  refine ⟨?_, ?_, ?_⟩
  · rw [hdc]
    simp only [List.length_append, List.length_singleton]
    have hC : 0 < 6 * k := by omega
    have harith : N * 6 + (6 * k - 1) =
        6 * k * (s.flushes.length + 1) + (6 * s.pending.length - 1) := by
      have hexp : 6 * k * (s.flushes.length + 1) =
          6 * (s.flushes.length * k) + 6 * k := by ring
      rw [hexp]
      generalize s.flushes.length * k = a at hNlen
      omega
    rw [harith, Nat.mul_add_div hC]
    have hsmall : (6 * s.pending.length - 1) / (6 * k) = 0 := by
      apply Nat.div_eq_of_lt
      have := hple
      omega
    omega
  · rw [hdc]
    simp only [List.map_append, List.map_cons, List.map_nil, List.sum_append,
      List.sum_cons, List.sum_nil, add_zero]
    have hsum : (s.flushes.map FlushRec.drawnVertices).sum =
        s.flushes.length * (6 * k) := by
      have hmem : ∀ x ∈ s.flushes.map FlushRec.drawnVertices, x = 6 * k := by
        intro x hx
        rcases List.mem_map.mp hx with ⟨f, hf, rfl⟩
        exact (hfl f hf).2.2
      rw [sum_of_all_eq (6 * k) _ hmem, List.length_map]
    rw [hsum, hcnt]
    have hexp : s.flushes.length * (6 * k) =
        6 * (s.flushes.length * k) := by ring
    rw [hexp]
    generalize s.flushes.length * k = a at hNlen
    omega
  · rw [hdc]
    simp only [List.map_append, List.map_cons, List.map_nil, List.join_append,
      List.join_cons, List.join_nil, List.append_nil]
    simpa [flushedCards] using hall

theorem c3_flush_count_witness :
    (drawContent (6 * 1) (List.range 2)).flushes.length =
      (2 * 6 + (6 * 1 - 1)) / (6 * 1)
    ∧ ((drawContent (6 * 1) (List.range 2)).flushes.map
        FlushRec.drawnVertices).sum = 2 * 6
    ∧ ((drawContent (6 * 1) (List.range 2)).flushes.map
        FlushRec.cards).join = List.range 2 :=
  c3_flush_count 2 1 (by decide) (by decide)

/-! ## Alpha/visibility culling in `_appendToBatch` (lines 1941-2071)

```js
_appendToBatch(container, concatMtx, concatAlpha, ignoreCache) {
  ...
  for (let i = 0; i < l; i++) {
    let item = container.children[i];
    if (!(item.visible && concatAlpha > 0.0035)) { continue; }
    let itemAlpha = item.alpha;
    ...
    if (useCache === false && item.children) {
      this._appendToBatch(item, cMtx, itemAlpha * concatAlpha);
      continue;
    }
    ... // texture resolution and six vertex writes, alpha = itemAlpha * concatAlpha
  }
}
```

The skip test consults `concatAlpha` — the alpha accumulated from the
*ancestors* — while the item's own `alpha` is only multiplied in for the
recursion and for the written vertex alphas. The traversal is modelled on
a tree of visible/alpha-tagged nodes; a processed leaf contributes one
appended card and one texture resolution, identified by its `texId`. -/

inductive GNode where
  | leaf (visible : Bool) (alpha : ℚ) (texId : Nat) : GNode
  | node (visible : Bool) (alpha : ℚ) (children : List GNode) : GNode

def nodeVisible : GNode → Bool
  | GNode.leaf v _ _ => v
  | GNode.node v _ _ => v

/-- The documented skip epsilon `0.0035` (line 1972). -/
def EPSILON_ALPHA : ℚ := 7 / 2000

mutual

/-- Processing one child `item` of the `_appendToBatch` loop at the
container's accumulated alpha `concatAlpha`: returns the pair
(appended card tex-ids, texture-resolution tex-ids) produced by the item
and its subtree. -/
def processChild (concatAlpha : ℚ) : GNode → List Nat × List Nat
  | GNode.leaf v _ texId =>
      if v && decide (EPSILON_ALPHA < concatAlpha) then ([texId], [texId])
      else ([], [])
  | GNode.node v a cs =>
      if v && decide (EPSILON_ALPHA < concatAlpha) then
        processChildren (a * concatAlpha) cs
      else ([], [])

/-- The `for` loop of `_appendToBatch` over a container's children. -/
def processChildren (concatAlpha : ℚ) : List GNode → List Nat × List Nat
  | [] => ([], [])
  | c :: rest =>
      let r := processChild concatAlpha c
      let r2 := processChildren concatAlpha rest
      (r.1 ++ r2.1, r.2 ++ r2.2)

end

theorem processChild_skip_invisible (concatAlpha : ℚ) (n : GNode)
    (h : nodeVisible n = false) : processChild concatAlpha n = ([], []) := by
  cases n <;> simp_all [processChild, nodeVisible]

theorem processChild_skip_alpha (concatAlpha : ℚ) (n : GNode)
    (h : concatAlpha ≤ EPSILON_ALPHA) : processChild concatAlpha n = ([], []) := by
  have hn : ¬ EPSILON_ALPHA < concatAlpha := not_lt.mpr h
  cases n <;> simp [processChild, hn]

theorem processChildren_skip_alpha (concatAlpha : ℚ) (cs : List GNode)
    (h : concatAlpha ≤ EPSILON_ALPHA) :
    processChildren concatAlpha cs = ([], []) := by
  induction cs with
  | nil => rfl
  | cons c rest ih =>
    simp [processChildren, ih, processChild_skip_alpha concatAlpha c h]

/-- Claim C5, counterexample: a visible leaf of alpha `1/1000` under an
ancestor chain of accumulated alpha `1` has accumulated alpha
`1/1000 * 1 < 0.0035`, yet the traversal appends its card and resolves its
texture — the skip test reads only the ancestors' accumulated alpha, never
the item's own. -/
theorem c5_alpha_cull_counterexample :
    ((1 : ℚ) / 1000) * 1 < EPSILON_ALPHA
    ∧ processChildren 1 [GNode.leaf true (1 / 1000) 7] = ([7], [7]) := by
  constructor
  · norm_num [EPSILON_ALPHA]
  · norm_num [processChildren, processChild, EPSILON_ALPHA]

/-- Claim C5, amended: a node produces zero appended vertices and zero
texture resolutions for itself and its whole subtree when it is invisible
or when the alpha accumulated over its *ancestors* (excluding its own
alpha) is at most the epsilon 0.0035; the culling also applies to every
node of a container's subtree once the container's own alpha drives the
accumulated product to at most the epsilon — but a *leaf* whose own alpha
drives the product below the epsilon is still appended. -/
theorem c5_alpha_cull_amended (concatAlpha : ℚ) (n : GNode) (cs : List GNode) :
    (nodeVisible n = false → processChild concatAlpha n = ([], []))
    ∧ (concatAlpha ≤ EPSILON_ALPHA → processChild concatAlpha n = ([], []))
    ∧ (concatAlpha ≤ EPSILON_ALPHA →
        processChildren concatAlpha cs = ([], []))
    ∧ (∀ (v : Bool) (a : ℚ) (children : List GNode),
        a * concatAlpha ≤ EPSILON_ALPHA →
        processChild concatAlpha (GNode.node v a children) = ([], [])) := by
  refine ⟨processChild_skip_invisible concatAlpha n,
    processChild_skip_alpha concatAlpha n,
    processChildren_skip_alpha concatAlpha cs, ?_⟩
  intro v a children hlow
  cases v with
  | false => simp [processChild]
  | true =>
    by_cases hα : EPSILON_ALPHA < concatAlpha
    · have hd : decide (EPSILON_ALPHA < concatAlpha) = true := decide_eq_true hα
      have heq : processChild concatAlpha (GNode.node true a children) =
          processChildren (a * concatAlpha) children := by
        simp [processChild, hd]
      rw [heq]
      exact processChildren_skip_alpha (a * concatAlpha) children hlow
    · have hd : decide (EPSILON_ALPHA < concatAlpha) = false :=
        decide_eq_false hα
      simp [processChild, hd]

theorem c5_alpha_cull_amended_witness :
    processChild ((1 : ℚ) / 1000) (GNode.leaf true 1 3) = ([], []) :=
  (c5_alpha_cull_amended ((1 : ℚ) / 1000) (GNode.leaf true 1 3) []).2.1
    (by norm_num [EPSILON_ALPHA])

/-! ## `_insertTextureInBatch` (lines 1678-1723)

```js
_insertTextureInBatch(gl, texture) {
  let image;
  if (this._batchTextures[texture._activeIndex] !== texture) {
    let found = -1;
    let start = (this._lastTextureInsert+1) % this._batchTextureCount;
    let look = start;
    do {
      if (this._batchTextures[look]._batchID !== this._batchID && !this._slotBlacklist[look]) {
        found = look;
        break;
      }
      look = (look+1) % this._batchTextureCount;
    } while (look !== start);
    if (found === -1) {
      this.batchReason = "textureOverflow";
      this._renderBatch();
      found = start;
    }
    this._batchTextures[found] = texture;
    texture._activeIndex = found;
    ... // image upload
    this._lastTextureInsert = found;
  } else if (texture._drawID !== this._drawID) {
    ... // image refresh only
  }
  texture._drawID = this._drawID;
  texture._batchID = this._batchID;
}
```

Textures are identified by their `_storeID`-like numeric id; their mutable
`_batchID` / `_drawID` / `_activeIndex` fields (each possibly `undefined`)
live in the state as maps from the id. `_lastTextureInsert` starts at `-1`
(line 1523), hence is an `Int`. -/

structure SlotState where
  batchTextures : List Nat
  slotBlacklist : List Bool
  lastTextureInsert : Int
  batchID : Nat
  drawID : Nat
  batchVertexCount : Nat
  flushReasons : List String
  texBatchID : Nat → Option Nat
  texDrawID : Nat → Option Nat
  texActiveIndex : Nat → Option Nat

/-- Point update of a per-texture attribute map. -/
def updFn (f : Nat → Option Nat) (x : Nat) (v : Option Nat) :
    Nat → Option Nat :=
  fun y => if y = x then v else f y

/-- The do-while eviction test for one slot: the occupant was not used in
the current batch (`_batchID !== this._batchID`, an `undefined` `_batchID`
also differs) and the slot is not blacklisted. -/
def evictableB (s : SlotState) (look : Nat) : Bool :=
  decide (s.texBatchID (s.batchTextures.getD look 0) ≠ some s.batchID)
  && !(s.slotBlacklist.getD look false)

/-- The do-while loop: starting at `look`, up to `fuel` probes, advancing by
`(look+1) % slotCount` — with `fuel = slotCount`, exactly one full wrap. -/
def findSlotGo (s : SlotState) : Nat → Nat → Option Nat
  | 0, _ => none
  | fuel + 1, look =>
      if evictableB s look then some look
      else findSlotGo s fuel ((look + 1) % s.batchTextures.length)

def findSlot (s : SlotState) (start : Nat) : Option Nat :=
  findSlotGo s s.batchTextures.length start

/-- `_renderBatch` as seen from the slot state: a no-op on an empty batch,
otherwise one draw (recorded with its `batchReason`) and `_batchID++`. -/
def renderBatchSlots (reason : String) (s : SlotState) : SlotState :=
  if s.batchVertexCount = 0 then s
  else
    { s with
        batchVertexCount := 0
        batchID := s.batchID + 1
        flushReasons := s.flushReasons ++ [reason] }

/-- The trailing stamps `texture._drawID = this._drawID;
texture._batchID = this._batchID`. -/
def stampTexture (s : SlotState) (tex : Nat) : SlotState :=
  { s with texDrawID := updFn s.texDrawID tex (some s.drawID),
           texBatchID := updFn s.texBatchID tex (some s.batchID) }

/-- `this._batchTextures[texture._activeIndex] === texture` — false when
`_activeIndex` is `undefined` or the indexed slot holds something else. -/
def occupiesRecordedSlot (s : SlotState) (tex : Nat) : Bool :=
  match s.texActiveIndex tex with
  | none => false
  | some i => decide (s.batchTextures.get? i = some tex)

/-- `this._batchTextures[found] = texture; texture._activeIndex = found;
this._lastTextureInsert = found`. -/
def placeTexture (s : SlotState) (tex found : Nat) : SlotState :=
  { s with batchTextures := s.batchTextures.set found tex,
           texActiveIndex := updFn s.texActiveIndex tex (some found),
           lastTextureInsert := (found : Int) }

def insertTextureInBatch (s : SlotState) (tex : Nat) : SlotState :=
  if occupiesRecordedSlot s tex then
    stampTexture s tex
  else
    let start := ((s.lastTextureInsert + 1) % (s.batchTextures.length : Int)).toNat
    match findSlot s start with
    | some found => stampTexture (placeTexture s tex found) tex
    | none =>
        stampTexture
          (placeTexture (renderBatchSlots "textureOverflow" s) tex start) tex

/-- The search's starting slot `(lastTextureInsert + 1) % slotCount`. -/
def insertStart (s : SlotState) : Nat :=
  ((s.lastTextureInsert + 1) % (s.batchTextures.length : Int)).toNat

/-- The slot the insertion ends up using: the round-robin hit, or the
starting slot after a forced flush. -/
def insertChosen (s : SlotState) : Nat :=
  (findSlot s (insertStart s)).getD (insertStart s)

theorem insertStart_lt (s : SlotState) (hn : 0 < s.batchTextures.length) :
    insertStart s < s.batchTextures.length := by
  have hpos : (0 : Int) < (s.batchTextures.length : Int) := by exact_mod_cast hn
  have h1 : 0 ≤ (s.lastTextureInsert + 1) % (s.batchTextures.length : Int) :=
    Int.emod_nonneg _ (by omega)
  have h2 : (s.lastTextureInsert + 1) % (s.batchTextures.length : Int) <
      (s.batchTextures.length : Int) := Int.emod_lt_of_pos _ hpos
  simp only [insertStart]
  omega

theorem findSlotGo_eq_find (s : SlotState) (hn : 0 < s.batchTextures.length) :
    ∀ (fuel look : Nat), look < s.batchTextures.length →
      findSlotGo s fuel look =
        ((List.range fuel).map
            (fun i => (look + i) % s.batchTextures.length)).find?
          (evictableB s) := by
  intro fuel
  induction fuel with
  | zero => intro look _; rfl
  | succ f ih =>
    intro look hlook
    rw [List.range_succ_eq_map]
    simp only [List.map_cons, List.map_map, Nat.add_zero,
      Nat.mod_eq_of_lt hlook]
    have htail : (List.range f).map
          ((fun i => (look + i) % s.batchTextures.length) ∘ Nat.succ) =
        (List.range f).map
          (fun i => ((look + 1) % s.batchTextures.length + i) %
            s.batchTextures.length) := by
      apply List.map_congr_left
      intro i _
      simp only [Function.comp_apply, Nat.mod_add_mod, Nat.succ_eq_add_one]
      ring_nf
    rw [htail]
    by_cases h : evictableB s look
    · simp [findSlotGo, h, List.find?]
    · have hlt : (look + 1) % s.batchTextures.length <
          s.batchTextures.length := Nat.mod_lt _ hn
      simp only [findSlotGo, h, if_false, List.find?,
        Bool.false_eq_true]
      exact ih ((look + 1) % s.batchTextures.length) hlt

/-- Claim C2: for a texture not already occupying its recorded slot, the
search starts at `(lastTextureInsert + 1) % slotCount` and picks the first
round-robin slot whose occupant's `_batchID` differs from the current
batch id and which is not blacklisted; a full wrap with no hit forces a
`"textureOverflow"` flush and reuses the starting slot; afterwards the
texture occupies exactly the chosen slot, `_lastTextureInsert` records it,
and the texture's `_batchID` / `_drawID` are the (post-flush) current batch
and draw ids. -/
theorem c2_slot_insertion (s : SlotState) (tex : Nat)
    (hn : 0 < s.batchTextures.length)
    (htex : tex ∉ s.batchTextures) :
    (findSlot s (insertStart s) =
        ((List.range s.batchTextures.length).map
            (fun i => (insertStart s + i) % s.batchTextures.length)).find?
          (evictableB s))
    ∧ (∀ j, j < s.batchTextures.length →
        ((insertTextureInBatch s tex).batchTextures.get? j = some tex ↔
          j = insertChosen s))
    ∧ (insertTextureInBatch s tex).texActiveIndex tex = some (insertChosen s)
    ∧ (insertTextureInBatch s tex).lastTextureInsert = (insertChosen s : Int)
    ∧ (insertTextureInBatch s tex).texBatchID tex =
        some (insertTextureInBatch s tex).batchID
    ∧ (insertTextureInBatch s tex).texDrawID tex = some s.drawID
    ∧ (findSlot s (insertStart s) = none →
        insertChosen s = insertStart s
        ∧ (0 < s.batchVertexCount →
            (insertTextureInBatch s tex).flushReasons =
              s.flushReasons ++ ["textureOverflow"]))
    ∧ (∀ f, findSlot s (insertStart s) = some f →
        insertChosen s = f
        ∧ (insertTextureInBatch s tex).flushReasons = s.flushReasons) := by
  have hocc : occupiesRecordedSlot s tex = false := by
    unfold occupiesRecordedSlot
    cases hai : s.texActiveIndex tex with
    | none => rfl
    | some i =>
      simp only [decide_eq_false_iff_not]
      intro hget
      exact htex (List.get?_mem hget)
  have hfind := findSlotGo_eq_find s hn s.batchTextures.length (insertStart s)
      (insertStart_lt s hn)
  have hchosen_lt : insertChosen s < s.batchTextures.length := by
    unfold insertChosen
    cases hf : findSlot s (insertStart s) with
    | none => simpa using insertStart_lt s hn
    | some f =>
      simp only [Option.getD_some]
      have hf' : findSlotGo s s.batchTextures.length (insertStart s) = some f := hf
      rw [hfind] at hf'
      have hmem := List.mem_of_find?_eq_some hf'
      rcases List.mem_map.mp hmem with ⟨i, _, rfl⟩
      exact Nat.mod_lt _ hn
  have hout : insertTextureInBatch s tex =
      stampTexture
        (placeTexture
          (if findSlot s (insertStart s) = none then
            renderBatchSlots "textureOverflow" s else s)
          tex (insertChosen s)) tex := by
    unfold insertTextureInBatch insertChosen insertStart
    rw [hocc]
    simp only [Bool.false_eq_true, if_false]
    cases hf : findSlot s
        ((s.lastTextureInsert + 1) % (s.batchTextures.length : Int)).toNat with
    | none => simp [hf]
    | some f => simp [hf]
  have hifDraw : (if findSlot s (insertStart s) = none then
      renderBatchSlots "textureOverflow" s else s).drawID = s.drawID := by
    by_cases hf : findSlot s (insertStart s) = none
    · by_cases hbv : s.batchVertexCount = 0 <;> simp [hf, hbv, renderBatchSlots]
    · simp [hf]
  refine ⟨hfind, ?_, ?_, ?_, ?_, ?_, ?_, ?_⟩
  · intro j hj
    rw [hout]
    have hbt : (stampTexture
        (placeTexture
          (if findSlot s (insertStart s) = none then
            renderBatchSlots "textureOverflow" s else s)
          tex (insertChosen s)) tex).batchTextures =
        s.batchTextures.set (insertChosen s) tex := by
      simp only [stampTexture, placeTexture]
      by_cases hf : findSlot s (insertStart s) = none
      · simp only [hf, if_true, renderBatchSlots]
        by_cases hbv : s.batchVertexCount = 0 <;> simp [hbv]
      · simp [hf]
    rw [hbt, List.get?_set_of_lt' tex _ hchosen_lt]
    by_cases hc : insertChosen s = j
    · simp [hc]
    · rw [if_neg hc]
      constructor
      · intro hget
        exact absurd (List.get?_mem hget) htex
      · intro h
        exact absurd h.symm hc
  · rw [hout]
    simp [stampTexture, placeTexture, updFn]
  · rw [hout]
    simp [stampTexture, placeTexture]
  · rw [hout]
    simp [stampTexture, placeTexture, updFn]
  · rw [hout]
    simp [stampTexture, placeTexture, updFn, hifDraw]
  · intro hf
    refine ⟨by simp [insertChosen, hf], ?_⟩
    intro hbv
    have hbv' : ¬ s.batchVertexCount = 0 := by omega
    rw [hout]
    simp [hf, stampTexture, placeTexture, renderBatchSlots, hbv']
  · intro f hf
    refine ⟨by simp [insertChosen, hf], ?_⟩
    rw [hout]
    simp [stampTexture, placeTexture, hf]

/-- A concrete two-slot state: slot 0 holds texture 0 (used in the current
batch 4), slot 1 holds texture 1 (last used in batch 3, evictable). -/
def slotStateExample : SlotState :=
  { batchTextures := [0, 1]
    slotBlacklist := [false, false]
    lastTextureInsert := -1
    batchID := 4
    drawID := 9
    batchVertexCount := 12
    flushReasons := []
    texBatchID := fun t => if t = 0 then some 4 else if t = 1 then some 3 else none
    texDrawID := fun t => if t ≤ 1 then some 9 else none
    texActiveIndex := fun t => if t = 0 then some 0 else if t = 1 then some 1 else none }

theorem c2_slot_insertion_witness :
    (insertTextureInBatch slotStateExample 5).texActiveIndex 5 =
      some (insertChosen slotStateExample) :=
  (c2_slot_insertion slotStateExample 5 (by decide) (by decide)).2.2.1

/-! ## Render-mode switching and immediate blend rendering:
`_updateRenderMode` (lines 1794-1848), `_immediateBatchRender`
(lines 2214-2245) and the per-child mode save/restore of `_appendToBatch`
(lines 1958-1961, 2009-2012, 2194-2206)

```js
_updateRenderMode(newMode) {
  if (newMode === null || newMode === undefined) { newMode = "source-over"; }
  let blendSrc = shaders.blendSources[newMode];
  ...
  if (this._renderMode === newMode) { return; }
  ... // build shaderData { ..., immediate: blendSrc.shader !== undefined, ... }
  if (shaderData.immediate) {
    if (this._directDraw) { ... return; }
    this._activeConfig = this._attributeConfig["micro"];
  }
  ...
  this.batchReason = "shaderSwap";
  this._renderBatch();
  this._renderMode = newMode;
  this._immediateRender = shaderData.immediate;
  gl.blendEquationSeparate(...); gl.blendFuncSeparate(...);
}
```

The per-item logic of `_appendToBatch`:

```js
let containerRenderMode = this._renderMode;
if (item.compositeOperation) { this._updateRenderMode(item.compositeOperation); }
if (this._batchVertexCount + StageGL.INDICIES_PER_CARD > this._maxBatchVertexCount) {
  this.batchReason = "vertexOverflow";
  this._renderBatch();
}
let cfg = this._activeConfig;
... // six vertex writes into cfg's arrays at offset _batchVertexCount
if (this._immediateRender) {
  this._activeConfig = this._attributeConfig["default"];
  this._immediateBatchRender();
}
if (this._renderMode !== containerRenderMode) { this._updateRenderMode(containerRenderMode); }
```

and the container level save/restore (lines 1958-1961, 2204-2206).

Two aspects of the source matter here and are embedded explicitly:

* there are two attribute configs, `"default"` and `"micro"`
  (`_createBuffers`, lines 1428-1511); the vertex writes go into the
  arrays of the config active at write time, while `_renderBatch`
  (lines 2261-2293) uploads and draws the arrays of the config active at
  *flush* time — the two can differ, because `_updateRenderMode` switches
  to `"micro"` (line 1836) *before* its `"shaderSwap"` flush (line 1842),
  and line 2195 switches back to `"default"` before `_immediateBatchRender`
  flushes the card just written into the micro arrays;

* `_immediateBatchRender` allocates its concat/temp buffers through
  `getRenderBufferTexture` (lines 2218, 2225), which always throws a
  `ReferenceError` on the unbound identifier `w` (claim C9, StageGL.js
  line 1082), and `_initializeWebGL` already calls it at line 681 whenever
  `directDraw` is `false`; the model therefore propagates exceptions. -/

inductive RMode where
  | sourceOver
  | multiply
deriving DecidableEq, Repr

/-- Modelled from the spec: the `blendSources` table lives in
`src/utils/gl/shaders`, which is not part of the sources; per the spec,
`source-over` is the default and free of special blending (no cover
shader), while `multiply` requires a two-texture cover-shader pass that
cannot be merged into the standard batch, i.e. its table entry carries a
`shader` body and is therefore `immediate`. -/
def blendImmediate : RMode → Bool
  | RMode.sourceOver => false
  | RMode.multiply => true

/-- The two attribute configs of `_attributeConfig` (lines 1447, 1480). -/
inductive GLConfig where
  | default
  | micro
deriving DecidableEq, Repr

/-- One recorded GPU draw: a `_renderBatch` draw (its `batchReason`, the
`_renderMode` whose blend state is installed, the attribute config whose
arrays were uploaded, and the per-card-slot contents of the drawn region
of those arrays — `none` marks a slot never written), or a `_renderCover`
draw issued by `_drawCover`. -/
inductive REvent where
  | batch (reason : String) (mode : RMode) (config : GLConfig)
      (cards : List (Option Nat))
  | cover (mode : RMode)
deriving DecidableEq, Repr

structure MState where
  renderMode : RMode
  immediateRender : Bool
  directDraw : Bool
  maxVtx : Nat
  batchVertexCount : Nat
  activeConfig : GLConfig
  bufDefault : List (Option Nat)
  bufMicro : List (Option Nat)
  viewportWidth : ℚ
  viewportHeight : ℚ
  batchTextureConcat : Option RenderTexture
  batchTextureTemp : Option RenderTexture
  events : List REvent
deriving DecidableEq, Repr

/-- The card-slot array of the currently active attribute config. -/
def activeBuf (s : MState) : List (Option Nat) :=
  match s.activeConfig with
  | GLConfig.default => s.bufDefault
  | GLConfig.micro => s.bufMicro

/-- `_renderBatch` (lines 2252-2297): a no-op on an empty batch, otherwise
it uploads and draws `_batchVertexCount` vertices of the *active* config's
arrays and resets the cursor (the arrays themselves are not cleared). -/
def renderBatchE (reason : String) (s : MState) : MState :=
  if s.batchVertexCount = 0 then s
  else
    { s with
        batchVertexCount := 0
        events := s.events ++
          [REvent.batch reason s.renderMode s.activeConfig
            ((activeBuf s).take (s.batchVertexCount / 6))] }

def updateRenderModeE (newMode : Option RMode) (s : MState) : MState :=
  let m := newMode.getD RMode.sourceOver
  if s.renderMode = m then s
  else if blendImmediate m && s.directDraw then s
  else
    let s1 := if blendImmediate m then { s with activeConfig := GLConfig.micro }
              else s
    let s2 := renderBatchE "shaderSwap" s1
    { s2 with renderMode := m, immediateRender := blendImmediate m }

/-- `_immediateBatchRender` (lines 2214-2245): ensure the concat and temp
render buffers exist — a missing one is allocated through
`getRenderBufferTexture`, which throws (claim C9) — then swap
output/concat (external GL state), flush the pending batch
(`"immediatePrep"`) and issue one `_drawCover` draw under the current
mode. -/
def immediateBatchRenderE (s : MState) : Except JsError MState := do
  let s ← match s.batchTextureConcat with
    | none => do
        let t ← getRenderBufferTexture s.viewportWidth s.viewportHeight
        pure { s with batchTextureConcat := some t }
    | some _ => pure s
  let s ← match s.batchTextureTemp with
    | none => do
        let t ← getRenderBufferTexture s.viewportWidth s.viewportHeight
        pure { s with batchTextureTemp := some t }
    | some _ => pure s
  let s := renderBatchE "immediatePrep" s
  pure { s with events := s.events ++ [REvent.cover s.renderMode] }

/-- The overflow check and the six vertex writes for one card: the card's
data lands in the card slot `_batchVertexCount / 6` of the *active*
config's arrays. -/
def appendCardE (card : Nat) (s : MState) : MState :=
  let s1 := if s.maxVtx < s.batchVertexCount + INDICIES_PER_CARD
            then renderBatchE "vertexOverflow" s else s
  let s2 := match s1.activeConfig with
    | GLConfig.default =>
        { s1 with bufDefault := s1.bufDefault.set (s1.batchVertexCount / 6) (some card) }
    | GLConfig.micro =>
        { s1 with bufMicro := s1.bufMicro.set (s1.batchVertexCount / 6) (some card) }
  { s2 with batchVertexCount := s2.batchVertexCount + INDICIES_PER_CARD }

structure LeafItem where
  id : Nat
  compositeOperation : Option RMode
deriving DecidableEq, Repr

/-- The `_appendToBatch` loop body for one leaf child, including the
switch back to the `"default"` config at line 2195 before
`_immediateBatchRender`. -/
def processLeafItemE (s : MState) (item : LeafItem) : Except JsError MState := do
  let containerRenderMode := s.renderMode
  let s1 := match item.compositeOperation with
            | some op => updateRenderModeE (some op) s
            | none => s
  let s2 := appendCardE item.id s1
  let s3 ← if s2.immediateRender then
      immediateBatchRenderE { s2 with activeConfig := GLConfig.default }
    else pure s2
  pure (if s3.renderMode ≠ containerRenderMode then
      updateRenderModeE (some containerRenderMode) s3
    else s3)

/-- `_appendToBatch` over a container of leaf children, including the
container-level `previousRenderMode` save/restore. -/
def appendToBatchE (s : MState) (containerOp : Option RMode)
    (children : List LeafItem) : Except JsError MState := do
  let previousRenderMode := s.renderMode
  let s1 := match containerOp with
            | some op => updateRenderModeE (some op) s
            | none => s
  let s2 ← children.foldlM processLeafItemE s1
  pure (if s2.renderMode ≠ previousRenderMode then
      updateRenderModeE (some previousRenderMode) s2
    else s2)

/-- The state right after `_initializeWebGL` ran
`_updateRenderMode("source-over")` and `_createBuffers` (fresh, never
written attribute arrays; no concat/temp buffers yet). -/
def initMState (directDraw : Bool) (maxVtx : Nat) (vw vh : ℚ) : MState :=
  { renderMode := RMode.sourceOver, immediateRender := false,
    directDraw := directDraw, maxVtx := maxVtx, batchVertexCount := 0,
    activeConfig := GLConfig.default,
    bufDefault := List.replicate (maxVtx / 6) none,
    bufMicro := List.replicate (maxVtx / 6) none,
    viewportWidth := vw, viewportHeight := vh,
    batchTextureConcat := none, batchTextureTemp := none,
    events := [] }

/-- `_drawContent` (lines 1857-1869) over the mode state. -/
def drawContentE (directDraw : Bool) (maxVtx : Nat) (vw vh : ℚ)
    (containerOp : Option RMode) (children : List LeafItem) :
    Except JsError MState := do
  let s ← appendToBatchE (initMState directDraw maxVtx vw vh) containerOp children
  pure (renderBatchE "contentEnd" s)

/-- Claim C4: evaluating the code at the claim's scenario
`[A(source-over), B(multiply), C(source-over)]`. A multiply switch only
takes effect with `directDraw = false` (lines 1832-1835), but then
`_initializeWebGL` (line 681) already throws the `ReferenceError` of
claim C9 while allocating the output buffer, and even with initialization
bypassed the first immediate render throws at line 2218 while allocating
the concat buffer — so the scenario never completes and no child is drawn
at all, instead of performing the claimed three-plus renders. With
`directDraw = true` (the default) the multiply switch is ignored and the
whole scene is drawn in a single source-over flush. -/
theorem c4_blend_mode_isolation_bug :
    initializeWebGLOutputBuffer false 800 600 =
      Except.error (JsError.referenceError "w")
    ∧ drawContentE false 1020 800 600 none
        [⟨0, some RMode.sourceOver⟩, ⟨1, some RMode.multiply⟩,
         ⟨2, some RMode.sourceOver⟩] =
      Except.error (JsError.referenceError "w")
    ∧ (drawContentE true 1020 800 600 none
        [⟨0, some RMode.sourceOver⟩, ⟨1, some RMode.multiply⟩,
         ⟨2, some RMode.sourceOver⟩]).map
          (fun s => (s.events.length,
            s.events.map (fun e => match e with
              | REvent.batch _ m _ _ => m
              | REvent.cover m => m))) =
      Except.ok (1, [RMode.sourceOver]) := by
  refine ⟨rfl, rfl, rfl⟩

end StageGLModel
